import Mathlib

/-!
Shallow embedding of the mcp-runtime client runtime (TypeScript) in Lean 4.

Each definition mirrors one function or code slice of the repository source;
the file comments name the source file and the behaviour embedded.  Stateful
and effectful behaviour (network fetches, TCP binds, promise settlement) is
made explicit through environment records passed to the embedded functions.
JavaScript string truthiness and substring search are modelled explicitly.
-/

namespace McpRuntime

/-- JavaScript truthiness of a string: every string except the empty string. -/
def jsTruthy (s : String) : Bool := s ≠ ""

/-- JavaScript truthiness of a possibly-absent string (`undefined`/`null` are falsy). -/
def jsTruthyOpt : Option String → Bool
  | some s => jsTruthy s
  | none => false

/-- Whether the character list `pat` occurs at the start of `s`. -/
def startsWithChars : List Char → List Char → Bool
  | _, [] => true
  | [], _ :: _ => false
  | c :: cs, d :: ds => c = d && startsWithChars cs ds

/-- Whether the character list `pat` occurs anywhere inside `s`. -/
def containsChars : List Char → List Char → Bool
  | [], pat => pat.isEmpty
  | c :: cs, pat => startsWithChars (c :: cs) pat || containsChars cs pat

/-- JavaScript `String.prototype.includes`: substring containment. -/
def jsIncludes (s pat : String) : Bool := containsChars s.data pat.data

/-! ## OAuth discovery scope resolution (`oauth-discovery.ts`, `resolveOAuthScope`) -/

/-- The slice of RFC 9728 protected-resource metadata read by `resolveOAuthScope`:
an optional `scopes_supported` array. -/
structure ResourceMetadata where
  scopes_supported : Option (List String)
deriving DecidableEq

/-- The slice of RFC 8414 authorization-server metadata used by the runtime:
optional `scopes_supported` and `grant_types_supported` arrays. -/
structure AuthServerMetadata where
  scopes_supported : Option (List String)
  grant_types_supported : Option (List String)
deriving DecidableEq

/-- The options object taken by `resolveOAuthScope`. -/
structure ScopeOptions where
  resourceMetadata : Option ResourceMetadata
  authorizationServerMetadata : Option AuthServerMetadata
  fallbackScope : Option String
deriving DecidableEq

/-- The nullish-coalescing chain
`options.resourceMetadata?.scopes_supported ?? options.authorizationServerMetadata?.scopes_supported`. -/
def supportedScopesOf (options : ScopeOptions) : Option (List String) :=
  (options.resourceMetadata.bind (·.scopes_supported)).orElse
    (fun _ => options.authorizationServerMetadata.bind (·.scopes_supported))

/-- `resolveOAuthScope` from `oauth-discovery.ts`: prefer `mcp:tools` when advertised,
else `mcp:connect`, else the first advertised scope; with no advertised scopes fall
back to `fallbackScope ?? "mcp:tools"`. -/
def resolveOAuthScope (options : ScopeOptions) : String :=
  match supportedScopesOf options with
  | some supportedScopes =>
    if supportedScopes.length > 0 then
      if supportedScopes.contains "mcp:tools" then "mcp:tools"
      else if supportedScopes.contains "mcp:connect" then "mcp:connect"
      else supportedScopes.headD ""
    else options.fallbackScope.getD "mcp:tools"
  | none => options.fallbackScope.getD "mcp:tools"

/-! ## Server definition data model (`config.ts` slice used by the runtime) -/

/-- The observable parts of a WHATWG `URL` value used by the runtime:
`origin` and `hostname` (for the token-refresh endpoint derivation). -/
structure HttpUrl where
  origin : String
  hostname : String
deriving DecidableEq

/-- The `command` tagged union of a server definition: subprocess stdio or HTTP.
HTTP headers are a string-to-string record, modelled as an association list. -/
inductive Command where
  | stdio (command : String) (args : List String) (cwd : Option String)
  | http (url : HttpUrl) (headers : Option (List (String × String)))
deriving DecidableEq

/-- The `command.kind` discriminant string. -/
def Command.kind : Command → String
  | .stdio .. => "stdio"
  | .http .. => "http"

/-- Provenance of a definition; the ad-hoc sentinel is `kind="local"`, `path="<adhoc>"`. -/
structure SourceInfo where
  kind : String
  path : String
deriving DecidableEq

/-- A structural model of a WHATWG `URL` as used for OAuth redirect URLs:
`port = none` renders as an empty port (the string form omits `:port`). -/
structure JsUrl where
  protocol : String
  hostname : String
  port : Option Nat
  pathname : String
deriving DecidableEq

/-- The fields of `ServerDefinition` (`config.ts`) that the embedded runtime
slices read or write. -/
structure ServerDefinition where
  name : String
  command : Command
  auth : Option String
  source : Option SourceInfo
  oauthRedirectUrl : Option JsUrl
  clientName : Option String
deriving DecidableEq

/-! ## Token refresh (`oauth-refresh.ts`, `tryRefreshTokens`) -/

/-- The token slice of a persisted vault entry (`entry.tokens`). -/
structure VaultTokens where
  access_token : Option String
  refresh_token : Option String
deriving DecidableEq

/-- The dynamic-registration result slice of a vault entry (`entry.clientInfo`). -/
structure VaultClientInfo where
  client_id : Option String
  client_secret : Option String
deriving DecidableEq

/-- A persisted vault entry as read by `loadVaultEntry`. -/
structure VaultEntry where
  tokens : Option VaultTokens
  clientInfo : Option VaultClientInfo
deriving DecidableEq

/-- The JSON body of a token-endpoint response, as read by `tryRefreshTokens`. -/
structure TokenResponseJson where
  access_token : Option String
  refresh_token : Option String
deriving DecidableEq

/-- Outcome of one `fetch` of a token endpoint: a network/parse failure (the
`catch` path), a non-2xx response (`!response.ok`), or a parsed 2xx JSON body. -/
inductive FetchResult where
  | netError
  | httpError (status : Nat) (body : String)
  | okJson (json : TokenResponseJson)
deriving DecidableEq

/-- The candidate token-endpoint list built by `tryRefreshTokens`: the three
origin-relative endpoints, with `https://api.athom.com/oauth2/token` unshifted
to the front when the hostname contains `athom.com` or `homey`. -/
def refreshEndpoints (origin hostname : String) : List String :=
  let possibleEndpoints :=
    [origin ++ "/oauth2/token",
     origin ++ "/token",
     origin ++ "/.well-known/oauth-authorization-server"]
  if jsIncludes hostname "athom.com" || jsIncludes hostname "homey" then
    "https://api.athom.com/oauth2/token" :: possibleEndpoints
  else
    possibleEndpoints

/-- The endpoint loop of `tryRefreshTokens`: try each endpoint in order; a 2xx
response whose JSON carries a truthy `access_token` returns that token (vault
persistence of the refreshed tokens is an effect outside this model); any other
outcome continues with the next endpoint.  Returns the token, if any, together
with the list of endpoints actually fetched, in order. -/
def refreshAttemptLoop (fetchEnv : String → FetchResult) :
    List String → Option String × List String
  | [] => (none, [])
  | endpoint :: rest =>
    match fetchEnv endpoint with
    | FetchResult.okJson json =>
      if jsTruthyOpt json.access_token then
        (json.access_token, [endpoint])
      else
        let r := refreshAttemptLoop fetchEnv rest
        (r.1, endpoint :: r.2)
    | _ =>
      let r := refreshAttemptLoop fetchEnv rest
      (r.1, endpoint :: r.2)

/-- The success criterion of one endpoint attempt in `tryRefreshTokens`: a 2xx
response whose parsed JSON carries a truthy `access_token`. -/
def refreshSucceedsAt (fetchEnv : String → FetchResult) (endpoint : String) : Bool :=
  match fetchEnv endpoint with
  | FetchResult.okJson json => jsTruthyOpt json.access_token
  | _ => false

/-- The access token a successful endpoint attempt returns. -/
def refreshTokenAt (fetchEnv : String → FetchResult) (endpoint : String) : Option String :=
  match fetchEnv endpoint with
  | FetchResult.okJson json => json.access_token
  | _ => none

/-- `tryRefreshTokens` (`oauth-refresh.ts`).  The persisted vault entry and the
network are environment inputs.  Requires an HTTP definition, a truthy persisted
`refresh_token`, a `clientInfo` record and a truthy `client_id`; otherwise
returns no token without fetching.  Result: the refreshed access token, if any,
and the endpoints fetched in order. -/
def tryRefreshTokens (definition : ServerDefinition) (entry : Option VaultEntry)
    (fetchEnv : String → FetchResult) : Option String × List String :=
  match definition.command with
  | Command.stdio .. => (none, [])
  | Command.http url _ =>
    match entry with
    | none => (none, [])
    | some e =>
      if ¬ (jsTruthyOpt (e.tokens.bind (·.refresh_token)) = true) then (none, [])
      else
        match e.clientInfo with
        | none => (none, [])
        | some clientInfo =>
          if ¬ (jsTruthyOpt clientInfo.client_id = true) then (none, [])
          else refreshAttemptLoop fetchEnv (refreshEndpoints url.origin url.hostname)

/-! ## OAuth promotion (`runtime-oauth-support.ts` and its probe-gated variant) -/

/-- The ad-hoc source test `source && source.kind === "local" && source.path === "<adhoc>"`. -/
def isAdHocSource (definition : ServerDefinition) : Bool :=
  match definition.source with
  | some s => s.kind = "local" && s.path = "<adhoc>"
  | none => false

/-- `maybeEnableOAuth` from `src/runtime-oauth-support.ts`, the variant imported
by `createClientContext` (`runtime/transport.ts`): promote any HTTP definition
whose `auth` is not already `"oauth"`; no probe and no ad-hoc restriction. -/
def maybeEnableOAuth (definition : ServerDefinition) : Option ServerDefinition :=
  if definition.auth = some "oauth" then none
  else
    match definition.command with
    | Command.stdio .. => none
    | Command.http .. => some { definition with auth := some "oauth" }

/-- Outcome of the `/.well-known/oauth-protected-resource` probe fetch: a thrown
network/parse error, or a response with its `ok` flag and the decoded
`authorization_servers` field (absent when not an array in the JSON). -/
inductive ProbeResult where
  | throws
  | response (ok : Bool) (authorization_servers : Option (List String))
deriving DecidableEq

/-- `probeOAuthSupport` from the probe-gated `maybeEnableOAuth` variant: true
exactly when the fetch succeeded, the response was 2xx, and
`authorization_servers` is a non-empty array. -/
def probeOAuthSupport (probe : ProbeResult) : Bool :=
  match probe with
  | ProbeResult.throws => false
  | ProbeResult.response ok servers =>
    if ¬ (ok = true) then false
    else
      match servers with
      | some l => decide (l.length > 0)
      | none => false

/-- The probe-gated `maybeEnableOAuth` variant (shipped alongside the permissive
one): for non-ad-hoc sources, promote only when `probeOAuthSupport` holds; for
the ad-hoc sentinel source, skip the probe and promote directly. -/
def maybeEnableOAuthProbed (definition : ServerDefinition) (probe : ProbeResult) :
    Option ServerDefinition :=
  if definition.auth = some "oauth" then none
  else
    match definition.command with
    | Command.stdio .. => none
    | Command.http .. =>
      if isAdHocSource definition then some { definition with auth := some "oauth" }
      else if probeOAuthSupport probe then some { definition with auth := some "oauth" }
      else none

/-! ## Error classification (`error-classifier.ts` interface) -/

/-- The classification kinds produced by the error classifier. -/
inductive ErrKind where
  | auth
  | offline
  | http
  | other
deriving DecidableEq

/-- The classifier output `{kind, statusCode?, rawMessage}`. -/
structure ConnectionIssue where
  kind : ErrKind
  statusCode : Option Nat
  rawMessage : String
deriving DecidableEq

/-- Modelled from the spec: `error-classifier.ts` is not in the snapshot (only
its callers are).  A raw transport error is represented here directly by the
classifier output it maps to, so `analyzeConnectionError` is the identity on
that representation. -/
def analyzeConnectionError (error : ConnectionIssue) : ConnectionIssue := error

/-- `isUnauthorizedError` from `runtime-oauth-support.ts`: the classified kind
is `auth`. -/
def isUnauthorizedError (error : ConnectionIssue) : Bool :=
  (analyzeConnectionError error).kind = ErrKind.auth

/-! ## Connect-with-auth retry loop (`runtime/oauth.ts`, `connectWithAuth`) -/

/-- Outcome of one `client.connect(transport)` call. -/
inductive ConnectOutcome where
  | ok
  | fail (e : ConnectionIssue)
deriving DecidableEq

/-- Outcome of one wait for the authorization code (the
`waitForAuthorizationCodeWithTimeout` race): the code arrived, the deadline
fired, or the pending promise was rejected. -/
inductive WaitOutcome where
  | code (c : String)
  | timedOut
  | failed (msg : String)
deriving DecidableEq

/-- The environment of one `connectWithAuth` run, indexed by loop iteration:
the connect outcome, whether `session.didStartAuthorization()` holds when the
failure is handled, the authorization-code wait outcome, and whether
`transport.finishAuth(code)` threw. -/
structure ConnectEnv where
  connect : Nat → ConnectOutcome
  started : Nat → Bool
  wait : Nat → WaitOutcome
  finishAuthResult : Nat → Option ConnectionIssue

/-- Terminal failures of `connectWithAuth`: a propagated connect error, the
wrapping error raised when authorization never started (failed dynamic
registration), an `OAuthTimeoutError`, a rejected code wait, or a
`finishAuth` failure. -/
inductive AuthConnectError where
  | connectError (e : ConnectionIssue)
  | registrationFailure (orig : ConnectionIssue)
  | oauthTimeout (serverName : String) (timeoutMs : Nat)
  | waitFailed (msg : String)
  | finishAuthError (e : ConnectionIssue)
deriving DecidableEq

/-- The `while (true)` body of `connectWithAuth`, with the running `attempt`
counter and the count `i` of connect calls issued so far.  Returns the terminal
outcome together with the total number of connect calls made. -/
def connectWithAuthGo (env : ConnectEnv) (sessionPresent hasFinishAuth : Bool)
    (maxAttempts : Nat) (serverName : String) (oauthTimeoutMs : Nat)
    (attempt i : Nat) : Except AuthConnectError Unit × Nat :=
  match env.connect i with
  | ConnectOutcome.ok => (Except.ok (), i + 1)
  | ConnectOutcome.fail e =>
    if ¬ (isUnauthorizedError e = true ∧ sessionPresent = true) then
      (Except.error (AuthConnectError.connectError e), i + 1)
    else
      if h : attempt + 1 > maxAttempts then
        (Except.error (AuthConnectError.connectError e), i + 1)
      else if ¬ (env.started i = true) then
        (Except.error (AuthConnectError.registrationFailure e), i + 1)
      else
        match env.wait i with
        | WaitOutcome.code _ =>
          if hasFinishAuth then
            match env.finishAuthResult i with
            | none =>
              connectWithAuthGo env sessionPresent hasFinishAuth maxAttempts
                serverName oauthTimeoutMs (attempt + 1) (i + 1)
            | some fe => (Except.error (AuthConnectError.finishAuthError fe), i + 1)
          else (Except.error (AuthConnectError.connectError e), i + 1)
        | WaitOutcome.timedOut =>
          (Except.error (AuthConnectError.oauthTimeout serverName oauthTimeoutMs), i + 1)
        | WaitOutcome.failed msg =>
          (Except.error (AuthConnectError.waitFailed msg), i + 1)
termination_by maxAttempts + 1 - attempt
decreasing_by omega

/-- `connectWithAuth` (`runtime/oauth.ts`): resolve the option defaults
(`maxAttempts = 3`, `oauthTimeoutMs = 60000`) and run the loop from attempt 0. -/
def connectWithAuth (env : ConnectEnv) (sessionPresent hasFinishAuth : Bool)
    (serverName : String) (maxAttemptsOpt oauthTimeoutOpt : Option Nat) :
    Except AuthConnectError Unit × Nat :=
  connectWithAuthGo env sessionPresent hasFinishAuth (maxAttemptsOpt.getD 3)
    serverName (oauthTimeoutOpt.getD 60000) 0 0

/-! ## Authorization-code wait with deadline (`runtime/oauth.ts`,
`waitForAuthorizationCodeWithTimeout`) -/

/-- A JavaScript number as used for `timeoutMs`: NaN, infinities, or a finite
rational. -/
inductive JsNumber where
  | nan
  | posInf
  | negInf
  | finite (q : ℚ)
deriving DecidableEq

/-- `Number.isFinite`. -/
def jsIsFinite : JsNumber → Bool
  | JsNumber.finite _ => true
  | _ => false

/-- The JavaScript comparison `timeoutMs <= 0` (false on NaN). -/
def jsLeZero : JsNumber → Bool
  | JsNumber.nan => false
  | JsNumber.posInf => false
  | JsNumber.negInf => true
  | JsNumber.finite q => decide (q ≤ 0)

/-- How the pending authorization-code promise of the session settles, when it
settles at all. -/
inductive SessionOutcome where
  | resolved (code : String)
  | rejected (msg : String)
deriving DecidableEq

/-- The environment of one wait: how (and whether) the session promise settles,
and whether it settles strictly before a timer scheduled at the given timeout
would fire. -/
structure WaitEnv where
  sessionOutcome : Option SessionOutcome
  sessionSettlesFirst : Bool

/-- The observable settlement of the promise returned by
`waitForAuthorizationCodeWithTimeout`. -/
inductive WaitFinal where
  | resolved (code : String)
  | rejectedErr (msg : String)
  | rejectedTimeout (serverName : String) (timeoutMs : JsNumber)
  | pending
deriving DecidableEq

/-- Settlement of the session promise returned unchanged (the no-deadline path). -/
def sessionPromiseFinal : Option SessionOutcome → WaitFinal
  | some (SessionOutcome.resolved c) => WaitFinal.resolved c
  | some (SessionOutcome.rejected m) => WaitFinal.rejectedErr m
  | none => WaitFinal.pending

/-- `waitForAuthorizationCodeWithTimeout` (`runtime/oauth.ts`): when `timeoutMs`
is not finite or not positive, return the session promise directly; otherwise
race it against a timer that rejects with `OAuthTimeoutError(serverName ??
"unknown", timeoutMs)`. -/
def waitForAuthorizationCodeWithTimeout (serverName : Option String)
    (timeoutMs : JsNumber) (env : WaitEnv) : WaitFinal :=
  if ¬ (jsIsFinite timeoutMs = true) ∨ jsLeZero timeoutMs = true then
    sessionPromiseFinal env.sessionOutcome
  else
    let displayName := serverName.getD "unknown"
    match env.sessionOutcome with
    | some o =>
      if env.sessionSettlesFirst then
        match o with
        | SessionOutcome.resolved c => WaitFinal.resolved c
        | SessionOutcome.rejected m => WaitFinal.rejectedErr m
      else WaitFinal.rejectedTimeout displayName timeoutMs
    | none => WaitFinal.rejectedTimeout displayName timeoutMs

/-! ## Client context builder (`runtime/transport.ts`, `createClientContext`) -/

/-- Outcome of the `readCachedAccessToken` call on the cached-auth fast path:
it threw (caught and logged) or returned a possibly-absent token.  The
token-cache read (and any silent refresh inside it) lives in
`oauth-persistence.ts`, outside this model; only its result matters here. -/
inductive ReadTokenResult where
  | threw
  | value (token : Option String)
deriving DecidableEq

/-- The JavaScript `"Authorization" in headers` own-key test on a header record. -/
def headersHaveKey (headers : List (String × String)) (key : String) : Bool :=
  headers.any (fun h => h.1 = key)

/-- The cached-auth fast path of `createClientContext` (lines 128-154): when
`allowCachedAuth` is set, `auth = "oauth"` and the command is HTTP, a truthy
cached token is injected as an `Authorization: Bearer` header, but only when
the headers do not already contain an `Authorization` entry; in every other
case the definition is returned unchanged. -/
def applyCachedAuth (allowCachedAuth : Bool) (definition : ServerDefinition)
    (readResult : ReadTokenResult) : ServerDefinition :=
  if allowCachedAuth = true ∧ definition.auth = some "oauth" ∧
      definition.command.kind = "http" then
    match definition.command with
    | Command.stdio .. => definition
    | Command.http url headers =>
      match readResult with
      | ReadTokenResult.threw => definition
      | ReadTokenResult.value cached =>
        if jsTruthyOpt cached then
          let existingHeaders := headers.getD []
          if headersHaveKey existingHeaders "Authorization" then definition
          else
            { definition with
              command := Command.http url
                (some (existingHeaders ++
                  [("Authorization", "Bearer " ++ cached.getD "")])) }
        else definition
  else definition

/-- A thrown error as observed by the `createClientContext` catch blocks: the
only observations made there are the classifier output and an
`instanceof OAuthTimeoutError` test, so an error is represented by those two. -/
structure ThrownError where
  issue : ConnectionIssue
  isOAuthTimeout : Bool
deriving DecidableEq

/-- The options record of `createClientContext`; absent numeric options keep
JavaScript `undefined` semantics (`undefined !== 0`). -/
structure CreateOptions where
  maxOAuthAttempts : Option Nat
  oauthTimeoutMs : Option Nat
  allowCachedAuth : Bool
deriving DecidableEq

/-- The environment of one `createClientContext` run: the cached-token read and,
per HTTP loop iteration, the outcome of `connectWithAuth` on the
streamable-HTTP and on the SSE transport. -/
structure BuildEnv where
  readToken : ReadTokenResult
  primary : Nat → Except ThrownError Unit
  sse : Nat → Except ThrownError Unit

/-- The externally visible OAuth side effects of `createClientContext`:
`createOAuthSession` calls and `maybeEnableOAuth` calls. -/
inductive RuntimeEvent where
  | sessionCreated (serverName : String)
  | promotionChecked (serverName : String)
deriving DecidableEq

/-- Which transport the built context holds. -/
inductive TransportKind where
  | stdio
  | streamableHttp
  | sse
deriving DecidableEq

/-- Result of a `createClientContext` run: a context (with its transport, the
possibly promoted definition, and whether an OAuth session is attached), a
propagated error, or the non-HTTP configuration error thrown inside the loop. -/
inductive BuildResult where
  | ok (transport : TransportKind) (definition : ServerDefinition) (sessionOpen : Bool)
  | err (e : ThrownError)
  | errNotHttp
deriving DecidableEq

/-- The SSE fallback arm of one HTTP loop iteration (lines 265-296): connect
over SSE; on success return the context (the session is still attached only
when the primary failure was not unauthorized, since an unauthorized primary
failure already closed and cleared it); on an unauthorized SSE failure with
`maxOAuthAttempts !== 0`, consult `maybeEnableOAuth` and restart the loop on
promotion (the `restart` continuation); otherwise propagate the SSE error. -/
def sseFallback (env : BuildEnv) (options : CreateOptions)
    (restart : ServerDefinition → BuildResult × List RuntimeEvent)
    (activeDefinition : ServerDefinition) (n : Nat)
    (eventsSoFar : List RuntimeEvent) (sessionStillOpen : Bool) :
    BuildResult × List RuntimeEvent :=
  match env.sse n with
  | Except.ok _ =>
    (BuildResult.ok TransportKind.sse activeDefinition sessionStillOpen, eventsSoFar)
  | Except.error sseError =>
    if sseError.isOAuthTimeout then (BuildResult.err sseError, eventsSoFar)
    else if (sseError.issue.kind = ErrKind.auth) ∧
        options.maxOAuthAttempts ≠ some 0 then
      match maybeEnableOAuth activeDefinition with
      | some promoted =>
        let r := restart promoted
        (r.1, eventsSoFar ++ RuntimeEvent.promotionChecked activeDefinition.name :: r.2)
      | none =>
        (BuildResult.err sseError,
         eventsSoFar ++ [RuntimeEvent.promotionChecked activeDefinition.name])
    else (BuildResult.err sseError, eventsSoFar)

/-- The `while (true)` HTTP loop of `createClientContext` (lines 188-298),
returning the result together with the OAuth side-effect events, in order.
One iteration: optionally create a session (`auth = "oauth"` and
`maxOAuthAttempts !== 0`); run connect-with-auth on streamable HTTP; on an
unauthorized failure close the session and, when `maxOAuthAttempts !== 0`,
consult `maybeEnableOAuth` and restart on promotion; propagate
`OAuthTimeoutError`; otherwise fall back to SSE.  The loop restarts only when
`maybeEnableOAuth` promotes, promotion sets `auth` to `"oauth"`, and a
promoted definition is never promoted again, so the loop runs at most two
iterations; the structural `fuel` parameter (2 at the entry point) makes this
recursion explicit, and the fuel-exhaustion branch is unreachable from the
entry point. -/
def createClientContextLoop (env : BuildEnv) (options : CreateOptions) :
    Nat → ServerDefinition → Nat → BuildResult × List RuntimeEvent
  | 0, _, _ => (BuildResult.errNotHttp, [])
  | fuel + 1, activeDefinition, n =>
    match activeDefinition.command with
    | Command.stdio .. => (BuildResult.errNotHttp, [])
    | Command.http .. =>
      let shouldEstablishOAuth : Bool :=
        activeDefinition.auth = some "oauth" ∧ options.maxOAuthAttempts ≠ some 0
      let sessionEvents : List RuntimeEvent :=
        if shouldEstablishOAuth then [RuntimeEvent.sessionCreated activeDefinition.name]
        else []
      match env.primary n with
      | Except.ok _ =>
        (BuildResult.ok TransportKind.streamableHttp activeDefinition shouldEstablishOAuth,
         sessionEvents)
      | Except.error primaryError =>
        let primaryUnauthorized : Bool := primaryError.issue.kind = ErrKind.auth
        if primaryUnauthorized = true ∧ options.maxOAuthAttempts ≠ some 0 then
          match maybeEnableOAuth activeDefinition with
          | some promoted =>
            let r := createClientContextLoop env options fuel promoted (n + 1)
            (r.1, sessionEvents ++ RuntimeEvent.promotionChecked activeDefinition.name :: r.2)
          | none =>
            if primaryError.isOAuthTimeout then
              (BuildResult.err primaryError,
               sessionEvents ++ [RuntimeEvent.promotionChecked activeDefinition.name])
            else
              sseFallback env options
                (fun promoted => createClientContextLoop env options fuel promoted (n + 1))
                activeDefinition n
                (sessionEvents ++ [RuntimeEvent.promotionChecked activeDefinition.name])
                (shouldEstablishOAuth && !primaryUnauthorized)
        else
          if primaryError.isOAuthTimeout then
            (BuildResult.err primaryError, sessionEvents)
          else
            sseFallback env options
              (fun promoted => createClientContextLoop env options fuel promoted (n + 1))
              activeDefinition n sessionEvents
              (shouldEstablishOAuth && !primaryUnauthorized)

/-- `createClientContext` (`runtime/transport.ts`): run the cached-auth fast
path, then connect: stdio definitions connect directly (no OAuth side effects);
HTTP definitions run the loop from iteration 0 with fuel for the at most two
iterations the promotion logic allows. -/
def createClientContext (env : BuildEnv) (options : CreateOptions)
    (definition : ServerDefinition) : BuildResult × List RuntimeEvent :=
  let activeDefinition := applyCachedAuth options.allowCachedAuth definition env.readToken
  match activeDefinition.command with
  | Command.stdio .. => (BuildResult.ok TransportKind.stdio activeDefinition false, [])
  | Command.http .. => createClientContextLoop env options 2 activeDefinition 0

/-! ## OAuth session construction (`oauth.ts`,
`PersistentOAuthClientProvider.create`) -/

/-- Outcome of one `server.listen(port, host)` request: the granted port, an
`EADDRINUSE` rejection, or some other listen failure. -/
inductive BindOutcome where
  | granted (port : Nat)
  | addrInUse
  | otherFailure (msg : String)
deriving DecidableEq

/-- The environment of one session construction: what each listen request
(by requested port; 0 requests an OS-assigned port) yields. -/
structure ListenEnv where
  bind : Nat → BindOutcome

/-- The loopback callback constants of `oauth.ts`. -/
def CALLBACK_HOST : String := "127.0.0.1"

/-- The default callback path. -/
def CALLBACK_PATH : String := "/"

/-- The stable loopback callback port preferred when no override is given. -/
def DEFAULT_CALLBACK_PORT : Nat := 33418

/-- WHATWG URL normalization of an explicit port: the scheme default port
(80 for http, 443 for https) renders as an empty port. -/
def normalizePort (protocol : String) (p : Nat) : Option Nat :=
  if protocol = "http:" ∧ p = 80 then none
  else if protocol = "https:" ∧ p = 443 then none
  else some p

/-- The listener-and-registration slice of
`PersistentOAuthClientProvider.create` that the redirect-URI invariant is
about: the bound port, the effective redirect URL, and the `redirect_uris`
recorded in the dynamic-registration client metadata. -/
structure SetupResult where
  port : Nat
  redirectUrl : JsUrl
  redirect_uris : List JsUrl
deriving DecidableEq

/-- Lines 134-177 of the provider source: choose host, path and port
preferences from `definition.oauthRedirectUrl`, bind the listener (preferring
port 33418 and falling back to an OS-assigned port only on `EADDRINUSE` when no
override is given), then (lines 179-187) derive the effective redirect URL and
(lines 214-231) the registered `redirect_uris`: with loopback defaults, the
port-less loopback URI and the stable-port URI; with an override, exactly the
effective URI.  Discovery, scope and the remaining client-metadata fields do
not touch the redirect URIs and are omitted.  Errors propagate as `Except.error`. -/
def oauthListenerSetup (definition : ServerDefinition) (env : ListenEnv) :
    Except String SetupResult :=
  let overrideRedirect := definition.oauthRedirectUrl
  let listenHost := match overrideRedirect with
    | some u => u.hostname
    | none => CALLBACK_HOST
  let overridePort : Option Nat := overrideRedirect.bind (·.port)
  let usesDynamicPort : Bool :=
    overrideRedirect = none ∨ overridePort = none ∨ overridePort = some 0
  let shouldPreferStablePort : Bool := overrideRedirect = none
  let desiredPort : Option Nat := if usesDynamicPort then none else overridePort
  let callbackPath : String := match overrideRedirect with
    | some u => if jsTruthy u.pathname ∧ u.pathname ≠ "/" then u.pathname else CALLBACK_PATH
    | none => CALLBACK_PATH
  let portE : Except String Nat :=
    if shouldPreferStablePort then
      match env.bind DEFAULT_CALLBACK_PORT with
      | BindOutcome.granted p => Except.ok p
      | BindOutcome.addrInUse =>
        match env.bind (desiredPort.getD 0) with
        | BindOutcome.granted p => Except.ok p
        | BindOutcome.addrInUse => Except.error "EADDRINUSE"
        | BindOutcome.otherFailure msg => Except.error msg
      | BindOutcome.otherFailure msg => Except.error msg
    else
      match env.bind (desiredPort.getD 0) with
      | BindOutcome.granted p => Except.ok p
      | BindOutcome.addrInUse => Except.error "EADDRINUSE"
      | BindOutcome.otherFailure msg => Except.error msg
  match portE with
  | Except.error msg => Except.error msg
  | Except.ok port =>
    let redirectUrl : JsUrl :=
      match overrideRedirect with
      | some u =>
        let u1 := if usesDynamicPort then { u with port := normalizePort u.protocol port } else u
        if u.pathname = "/" ∨ u.pathname = "" then { u1 with pathname := callbackPath } else u1
      | none =>
        { protocol := "http:", hostname := listenHost,
          port := normalizePort "http:" port, pathname := callbackPath }
    let redirectUris : List JsUrl :=
      if overrideRedirect = none ∧ listenHost = CALLBACK_HOST then
        [{ protocol := "http:", hostname := CALLBACK_HOST, port := none, pathname := "/" },
         { protocol := "http:", hostname := CALLBACK_HOST,
           port := some DEFAULT_CALLBACK_PORT, pathname := "/" }]
      else [redirectUrl]
    Except.ok { port := port, redirectUrl := redirectUrl, redirect_uris := redirectUris }

/-! ## OAuth callback handler (`oauth.ts`,
`PersistentOAuthClientProvider.attachServer`) -/

/-- A callback HTTP request as the handler observes it: the parsed pathname and
the `code`, `error` and `state` query parameters (a parameter present with an
empty value is `some ""`). -/
structure CallbackRequest where
  path : String
  code : Option String
  error : Option String
  state : Option String
deriving DecidableEq

/-- The HTTP response the handler writes. -/
structure CallbackResponse where
  status : Nat
  body : String
deriving DecidableEq

/-- What happens to the pending authorization-code deferred: resolution,
rejection, or nothing (no pending deferred, or the 404 path). -/
inductive PromiseAction where
  | resolved (code : String)
  | rejected (msg : String)
  | noAction
deriving DecidableEq

/-- The request handler installed by `attachServer` (lines 259-317): 404 on a
path that is neither the expected path nor the `/callback` fallback; 400 with
"Invalid OAuth state" and a rejection when both the persisted and the received
state are truthy and differ; 200 and resolution when `code` is truthy; 400 and
rejection when `error` is truthy; otherwise 400 "Missing authorization code"
and rejection.  `pending` says whether a deferred exists to settle. -/
def handleCallbackRequest (expectedPath : String) (persistedState : Option String)
    (pending : Bool) (req : CallbackRequest) : CallbackResponse × PromiseAction :=
  let fallbackPath : Option String := if expectedPath = "/" then some "/callback" else none
  let pathMissesFallback : Bool := match fallbackPath with
    | some f => req.path ≠ f
    | none => true
  let settle : PromiseAction → PromiseAction :=
    fun a => if pending then a else PromiseAction.noAction
  if req.path ≠ expectedPath ∧ pathMissesFallback = true then
    ({ status := 404, body := "Not found" }, PromiseAction.noAction)
  else if jsTruthyOpt persistedState ∧ jsTruthyOpt req.state ∧ req.state ≠ persistedState then
    ({ status := 400,
       body := "<html><body><h1>Authorization failed</h1><p>Invalid OAuth state</p></body></html>" },
     settle (PromiseAction.rejected "Invalid OAuth state"))
  else if jsTruthyOpt req.code then
    ({ status := 200,
       body := "<html><body><h1>Authorization successful</h1><p>You can return to the CLI.</p></body></html>" },
     settle (PromiseAction.resolved (req.code.getD "")))
  else if jsTruthyOpt req.error then
    ({ status := 400,
       body := "<html><body><h1>Authorization failed</h1><p>" ++ req.error.getD "" ++
         "</p></body></html>" },
     settle (PromiseAction.rejected ("OAuth error: " ++ req.error.getD "")))
  else
    ({ status := 400, body := "Missing authorization code" },
     settle (PromiseAction.rejected "Missing authorization code"))

/-! ## Theorems -/

/-- C6: for every input, `resolveOAuthScope` returns `mcp:tools` when the
advertised scope list (the resource metadata `scopes_supported`, falling back
to the authorization server one) contains it, otherwise `mcp:connect` when
contained, otherwise the first advertised scope; with no scopes advertised it
returns the fallback scope, defaulting to `mcp:tools`. -/
theorem resolveOAuthScope_spec (options : ScopeOptions) :
    (∀ l, supportedScopesOf options = some l → l ≠ [] →
      resolveOAuthScope options =
        (if "mcp:tools" ∈ l then "mcp:tools"
         else if "mcp:connect" ∈ l then "mcp:connect"
         else l.headD "")) ∧
    (supportedScopesOf options = some [] →
      resolveOAuthScope options = options.fallbackScope.getD "mcp:tools") ∧
    (supportedScopesOf options = none →
      resolveOAuthScope options = options.fallbackScope.getD "mcp:tools") ∧
    (∀ r l, options.resourceMetadata = some r → r.scopes_supported = some l →
      supportedScopesOf options = some l) ∧
    (options.resourceMetadata.bind (·.scopes_supported) = none →
      supportedScopesOf options =
        options.authorizationServerMetadata.bind (·.scopes_supported)) := by
  refine ⟨?_, ?_, ?_, ?_, ?_⟩
  · intro l hl hne
    simp only [resolveOAuthScope, hl]
    rw [if_pos (by simpa using List.length_pos.mpr hne)]
    by_cases h1 : "mcp:tools" ∈ l
    · simp [h1, List.contains, List.elem_iff]
    · by_cases h2 : "mcp:connect" ∈ l
      · simp [h1, h2, List.contains, List.elem_iff]
      · simp [h1, h2, List.contains, List.elem_iff]
  · intro hl
    simp [resolveOAuthScope, hl]
  · intro hl
    simp [resolveOAuthScope, hl]
  · intro r l hr hl
    simp [supportedScopesOf, hr, hl, Option.orElse]
  · intro h
    simp [supportedScopesOf, h, Option.orElse]

/-- C6 witness: a concrete evaluation through `resolveOAuthScope_spec`. -/
theorem resolveOAuthScope_spec_witness :
    resolveOAuthScope ⟨some ⟨some ["admin", "mcp:connect"]⟩, none, some "x"⟩ =
      "mcp:connect" := by
  have h := (resolveOAuthScope_spec ⟨some ⟨some ["admin", "mcp:connect"]⟩, none, some "x"⟩).1
    ["admin", "mcp:connect"] (by simp [supportedScopesOf, Option.orElse]) (by simp)
  simpa using h

/-- C7 counterexample: an advertised scope list containing only the empty
string makes `resolveOAuthScope` return the empty string, even though the
authorization server advertises `mcp:tools` and a non-empty fallback is given;
the result is not a non-empty string for every input. -/
theorem resolveOAuthScope_empty_counterexample :
    resolveOAuthScope
      ⟨some ⟨some [""]⟩, some ⟨some ["mcp:tools"], none⟩, some "mcp:tools"⟩ = "" := by
  rfl

/-- C7 amended: `resolveOAuthScope` is total by construction, and its result is
non-empty for every input whose advertised scopes are all non-empty and whose
fallback, when provided, is non-empty; an empty advertised first scope (with
neither `mcp:tools` nor `mcp:connect` listed) or an empty provided fallback
with no advertised scopes yields the empty string. -/
theorem resolveOAuthScope_nonempty (options : ScopeOptions)
    (hscopes : ∀ l, supportedScopesOf options = some l → ∀ s ∈ l, s ≠ "")
    (hfallback : ∀ f, options.fallbackScope = some f → f ≠ "") :
    resolveOAuthScope options ≠ "" := by
  have hdef : ∀ h : options.fallbackScope.getD "mcp:tools" = "",
      False := by
    intro h
    cases hf : options.fallbackScope with
    | none => simp [hf] at h
    | some f => exact hfallback f hf (by simpa [hf] using h)
  cases hl : supportedScopesOf options with
  | none =>
    simp only [resolveOAuthScope, hl]
    intro h
    exact hdef h
  | some l =>
    simp only [resolveOAuthScope, hl]
    by_cases hlen : l.length > 0
    · rw [if_pos hlen]
      by_cases h1 : l.contains "mcp:tools" = true
      · rw [if_pos h1]
        decide
      · rw [if_neg h1]
        by_cases h2 : l.contains "mcp:connect" = true
        · rw [if_pos h2]
          decide
        · rw [if_neg h2]
          have hne : l ≠ [] := by
            intro he
            simp [he] at hlen
          have hmem : l.headD "" ∈ l := by
            cases l with
            | nil => exact absurd rfl hne
            | cons a t => simp
          exact hscopes l hl (l.headD "") hmem
    · rw [if_neg hlen]
      intro h
      exact hdef h

/-- C7 amended witness: a concrete evaluation through
`resolveOAuthScope_nonempty`. -/
theorem resolveOAuthScope_nonempty_witness :
    resolveOAuthScope ⟨none, some ⟨some ["read"], none⟩, none⟩ ≠ "" := by
  refine resolveOAuthScope_nonempty _ ?_ ?_
  · intro l hl s hs
    simp [supportedScopesOf, Option.orElse] at hl
    subst hl
    simp at hs
    subst hs
    decide
  · intro f hf
    simp at hf

/-- Helper: when no endpoint in the list succeeds, the refresh loop returns no
token and fetches every endpoint in order. -/
theorem refreshAttemptLoop_all_fail (fetchEnv : String → FetchResult)
    (l : List String) (h : ∀ x ∈ l, refreshSucceedsAt fetchEnv x = false) :
    refreshAttemptLoop fetchEnv l = (none, l) := by
  induction l with
  | nil => rfl
  | cons e rest ih =>
    have he := h e (by simp)
    have hrest : ∀ x ∈ rest, refreshSucceedsAt fetchEnv x = false :=
      fun x hx => h x (by simp [hx])
    cases hf : fetchEnv e with
    | okJson j =>
      have hj : jsTruthyOpt j.access_token = false := by
        simpa [refreshSucceedsAt, hf] using he
      simp [refreshAttemptLoop, hf, hj, ih hrest]
    | netError => simp [refreshAttemptLoop, hf, ih hrest]
    | httpError s b => simp [refreshAttemptLoop, hf, ih hrest]

/-- Helper: the refresh loop stops at the first succeeding endpoint, returning
its token, after fetching exactly the failing ones before it and it. -/
theorem refreshAttemptLoop_first_success (fetchEnv : String → FetchResult)
    (pre : List String) (e : String) (post : List String)
    (hpre : ∀ x ∈ pre, refreshSucceedsAt fetchEnv x = false)
    (he : refreshSucceedsAt fetchEnv e = true) :
    refreshAttemptLoop fetchEnv (pre ++ e :: post) =
      (refreshTokenAt fetchEnv e, pre ++ [e]) := by
  induction pre with
  | nil =>
    cases hf : fetchEnv e with
    | okJson j =>
      have hj : jsTruthyOpt j.access_token = true := by
        simpa [refreshSucceedsAt, hf] using he
      simp [refreshAttemptLoop, hf, hj, refreshTokenAt]
    | netError => simp [refreshSucceedsAt, hf] at he
    | httpError s b => simp [refreshSucceedsAt, hf] at he
  | cons x rest ih =>
    have hx := hpre x (by simp)
    have hrest : ∀ y ∈ rest, refreshSucceedsAt fetchEnv y = false :=
      fun y hy => hpre y (by simp [hy])
    cases hf : fetchEnv x with
    | okJson j =>
      have hj : jsTruthyOpt j.access_token = false := by
        simpa [refreshSucceedsAt, hf] using hx
      simp [refreshAttemptLoop, hf, hj, ih hrest]
    | netError => simp [refreshAttemptLoop, hf, ih hrest]
    | httpError s b => simp [refreshAttemptLoop, hf, ih hrest]

/-- C1 counterexample: for a hostname containing `homey`, `tryRefreshTokens`
fetches `https://api.athom.com/oauth2/token` first, before the three
origin-relative endpoints, so the endpoints are not tried in the claimed order
for every server hostname. -/
theorem tryRefreshTokens_homey_counterexample :
    tryRefreshTokens
      { name := "homey", command := Command.http
          ⟨"https://my.homey.example", "my.homey.example"⟩ none,
        auth := some "oauth", source := none,
        oauthRedirectUrl := none, clientName := none }
      (some { tokens := some { access_token := none, refresh_token := some "rtok" },
              clientInfo := some { client_id := some "cid", client_secret := none } })
      (fun _ => FetchResult.netError) =
      (none,
       ["https://api.athom.com/oauth2/token",
        "https://my.homey.example/oauth2/token",
        "https://my.homey.example/token",
        "https://my.homey.example/.well-known/oauth-authorization-server"]) ∧
    ["https://api.athom.com/oauth2/token",
     "https://my.homey.example/oauth2/token",
     "https://my.homey.example/token",
     "https://my.homey.example/.well-known/oauth-authorization-server"] ≠
    ["https://my.homey.example/oauth2/token",
     "https://my.homey.example/token",
     "https://my.homey.example/.well-known/oauth-authorization-server"] := by
  constructor
  · rfl
  · decide

/-- C1 amended: for every HTTP server definition holding a persisted (truthy)
refresh token and client id whose hostname contains neither `athom.com` nor
`homey`, `tryRefreshTokens` tries exactly `/oauth2/token`, `/token`,
`/.well-known/oauth-authorization-server` at the server origin, in that order,
stopping at the first 2xx response whose JSON carries an access token; for
hostnames containing `athom.com` or `homey`, `https://api.athom.com/oauth2/token`
is tried first. -/
theorem tryRefreshTokens_endpoint_order (definition : ServerDefinition)
    (url : HttpUrl) (headers : Option (List (String × String)))
    (entry : VaultEntry) (tk : VaultTokens) (ci : VaultClientInfo)
    (rt cid : String) (fetchEnv : String → FetchResult)
    (hcmd : definition.command = Command.http url headers)
    (hhost1 : jsIncludes url.hostname "athom.com" = false)
    (hhost2 : jsIncludes url.hostname "homey" = false)
    (htk : entry.tokens = some tk) (hrt : tk.refresh_token = some rt)
    (hrtne : rt ≠ "")
    (hci : entry.clientInfo = some ci) (hcid : ci.client_id = some cid)
    (hcidne : cid ≠ "") :
    ((∀ x ∈ [url.origin ++ "/oauth2/token", url.origin ++ "/token",
        url.origin ++ "/.well-known/oauth-authorization-server"],
        refreshSucceedsAt fetchEnv x = false) →
      tryRefreshTokens definition (some entry) fetchEnv =
        (none, [url.origin ++ "/oauth2/token", url.origin ++ "/token",
          url.origin ++ "/.well-known/oauth-authorization-server"])) ∧
    (∀ pre e post,
      [url.origin ++ "/oauth2/token", url.origin ++ "/token",
        url.origin ++ "/.well-known/oauth-authorization-server"] = pre ++ e :: post →
      (∀ x ∈ pre, refreshSucceedsAt fetchEnv x = false) →
      refreshSucceedsAt fetchEnv e = true →
      tryRefreshTokens definition (some entry) fetchEnv =
        (refreshTokenAt fetchEnv e, pre ++ [e])) := by
  have hguard : tryRefreshTokens definition (some entry) fetchEnv =
      refreshAttemptLoop fetchEnv
        [url.origin ++ "/oauth2/token", url.origin ++ "/token",
         url.origin ++ "/.well-known/oauth-authorization-server"] := by
    simp [tryRefreshTokens, hcmd, htk, hrt, hrtne, hci, hcid, hcidne, jsTruthyOpt,
      jsTruthy, refreshEndpoints, hhost1, hhost2]
  constructor
  · intro hall
    rw [hguard]
    exact refreshAttemptLoop_all_fail fetchEnv _ hall
  · intro pre e post hsplit hpre he
    rw [hguard, hsplit]
    exact refreshAttemptLoop_first_success fetchEnv pre e post hpre he

/-- C1 amended witness: a concrete run through `tryRefreshTokens_endpoint_order`
where the first endpoint fails and the second succeeds. -/
theorem tryRefreshTokens_endpoint_order_witness :
    tryRefreshTokens
      { name := "srv", command := Command.http ⟨"https://s.example", "s.example"⟩ none,
        auth := some "oauth", source := none,
        oauthRedirectUrl := none, clientName := none }
      (some { tokens := some { access_token := none, refresh_token := some "rtok" },
              clientInfo := some { client_id := some "cid", client_secret := none } })
      (fun ep => if ep = "https://s.example/token"
        then FetchResult.okJson { access_token := some "fresh", refresh_token := none }
        else FetchResult.netError) =
      (some "fresh", ["https://s.example/oauth2/token", "https://s.example/token"]) := by
  have h := (tryRefreshTokens_endpoint_order
    { name := "srv", command := Command.http ⟨"https://s.example", "s.example"⟩ none,
      auth := some "oauth", source := none,
      oauthRedirectUrl := none, clientName := none }
    ⟨"https://s.example", "s.example"⟩ none
    { tokens := some { access_token := none, refresh_token := some "rtok" },
      clientInfo := some { client_id := some "cid", client_secret := none } }
    { access_token := none, refresh_token := some "rtok" }
    { client_id := some "cid", client_secret := none }
    "rtok" "cid"
    (fun ep => if ep = "https://s.example/token"
      then FetchResult.okJson { access_token := some "fresh", refresh_token := none }
      else FetchResult.netError)
    rfl (by decide) (by decide) rfl rfl (by decide) rfl rfl (by decide)).2
    ["https://s.example/oauth2/token"] "https://s.example/token"
    ["https://s.example/.well-known/oauth-authorization-server"]
    (by decide) (by decide) (by decide)
  simpa using h

/-- C2 counterexample: the `maybeEnableOAuth` imported by `createClientContext`
(`src/runtime-oauth-support.ts`) promotes a non-ad-hoc HTTP definition without
any probe of `/.well-known/oauth-protected-resource` having advertised an
authorization server: promotion is not restricted to ad-hoc sources or
probe-confirmed servers. -/
theorem maybeEnableOAuth_promotes_without_probe :
    maybeEnableOAuth
      { name := "linear", command := Command.http ⟨"https://example.com", "example.com"⟩ none,
        auth := none, source := some ⟨"file", "/home/user/config.json"⟩,
        oauthRedirectUrl := none, clientName := none } =
      some
        { name := "linear", command := Command.http ⟨"https://example.com", "example.com"⟩ none,
          auth := some "oauth", source := some ⟨"file", "/home/user/config.json"⟩,
          oauthRedirectUrl := none, clientName := none } ∧
    isAdHocSource
      { name := "linear", command := Command.http ⟨"https://example.com", "example.com"⟩ none,
        auth := none, source := some ⟨"file", "/home/user/config.json"⟩,
        oauthRedirectUrl := none, clientName := none } = false := by
  constructor
  · rfl
  · rfl

/-- C2 amended: the probe-gated variant of `maybeEnableOAuth` promotes a
definition exactly when its auth is not already oauth, its command is HTTP, and
either the source is the ad-hoc sentinel or the probe advertises at least one
authorization server; for a non-ad-hoc source with a failing or empty probe it
does not promote.  The variant imported by `createClientContext` promotes every
non-oauth HTTP definition unconditionally. -/
theorem maybeEnableOAuthProbed_gated (definition : ServerDefinition)
    (probe : ProbeResult) :
    (maybeEnableOAuthProbed definition probe =
        some { definition with auth := some "oauth" } ↔
      definition.auth ≠ some "oauth" ∧ definition.command.kind = "http" ∧
        (isAdHocSource definition = true ∨ probeOAuthSupport probe = true)) ∧
    (isAdHocSource definition = false → probeOAuthSupport probe = false →
      maybeEnableOAuthProbed definition probe = none) ∧
    (definition.auth ≠ some "oauth" → definition.command.kind = "http" →
      maybeEnableOAuth definition = some { definition with auth := some "oauth" }) := by
  refine ⟨?_, ?_, ?_⟩
  · constructor
    · intro h
      by_cases ha : definition.auth = some "oauth"
      · simp [maybeEnableOAuthProbed, ha] at h
      · cases hc : definition.command with
        | stdio c a w => simp [maybeEnableOAuthProbed, ha, hc] at h
        | http u hs =>
          refine ⟨ha, by simp [hc, Command.kind], ?_⟩
          by_cases had : isAdHocSource definition = true
          · exact Or.inl had
          · by_cases hp : probeOAuthSupport probe = true
            · exact Or.inr hp
            · simp [maybeEnableOAuthProbed, ha, hc, had, hp] at h
    · rintro ⟨ha, hk, hor⟩
      cases hc : definition.command with
      | stdio c a w => simp [hc, Command.kind] at hk
      | http u hs =>
        rcases hor with had | hp
        · simp [maybeEnableOAuthProbed, ha, hc, had]
        · by_cases had : isAdHocSource definition = true
          · simp [maybeEnableOAuthProbed, ha, hc, had]
          · simp [maybeEnableOAuthProbed, ha, hc, had, hp]
  · intro had hp
    by_cases ha : definition.auth = some "oauth"
    · simp [maybeEnableOAuthProbed, ha]
    · cases hc : definition.command with
      | stdio c a w => simp [maybeEnableOAuthProbed, ha, hc]
      | http u hs => simp [maybeEnableOAuthProbed, ha, hc, had, hp]
  · intro ha hk
    cases hc : definition.command with
    | stdio c a w => simp [hc, Command.kind] at hk
    | http u hs => simp [maybeEnableOAuth, ha, hc]

/-- C2 amended witness: concrete evaluations through
`maybeEnableOAuthProbed_gated`: an ad-hoc definition is promoted with a failing
probe, and a non-ad-hoc definition is not promoted when the probe advertises no
authorization server. -/
theorem maybeEnableOAuthProbed_gated_witness :
    maybeEnableOAuthProbed
      { name := "adhoc", command := Command.http ⟨"https://a.example", "a.example"⟩ none,
        auth := none, source := some ⟨"local", "<adhoc>"⟩,
        oauthRedirectUrl := none, clientName := none } ProbeResult.throws =
      some
        { name := "adhoc", command := Command.http ⟨"https://a.example", "a.example"⟩ none,
          auth := some "oauth", source := some ⟨"local", "<adhoc>"⟩,
          oauthRedirectUrl := none, clientName := none } ∧
    maybeEnableOAuthProbed
      { name := "cfg", command := Command.http ⟨"https://b.example", "b.example"⟩ none,
        auth := none, source := some ⟨"file", "/home/user/config.json"⟩,
        oauthRedirectUrl := none, clientName := none }
      (ProbeResult.response true (some [])) = none := by
  constructor
  · exact (maybeEnableOAuthProbed_gated _ ProbeResult.throws).1.mpr
      (by refine ⟨by simp, rfl, Or.inl ?_⟩; rfl)
  · exact (maybeEnableOAuthProbed_gated _ _).2.1 (by rfl) (by rfl)

/-- C8 counterexample: a callback request on the expected path whose `state`
parameter is present but empty differs from the persisted state `"abc"`, yet
the handler answers 200 and resolves the pending promise with the code: the
truthiness guard skips the state comparison for an empty received state. -/
theorem handleCallback_empty_state_counterexample :
    handleCallbackRequest "/" (some "abc") true
      { path := "/", code := some "xyz", error := none, state := some "" } =
      ({ status := 200,
         body := "<html><body><h1>Authorization successful</h1><p>You can return to the CLI.</p></body></html>" },
       PromiseAction.resolved "xyz") ∧
    (some "" : Option String) ≠ some "abc" := by
  constructor
  · rfl
  · decide

/-- C8 amended: for every callback request on the expected path carrying a
non-empty `state` parameter different from the non-empty persisted state, the
handler answers 400 with a body containing "Invalid OAuth state" and rejects
the pending promise, regardless of any `code` parameter; an empty received
state (or an empty or absent persisted state) bypasses this check. -/
theorem handleCallback_state_mismatch (expectedPath s r : String)
    (req : CallbackRequest) (pathEq : req.path = expectedPath)
    (hs : s ≠ "") (hr : r ≠ "") (hstate : req.state = some r) (hne : r ≠ s) :
    handleCallbackRequest expectedPath (some s) true req =
      ({ status := 400,
         body := "<html><body><h1>Authorization failed</h1><p>Invalid OAuth state</p></body></html>" },
       PromiseAction.rejected "Invalid OAuth state") ∧
    jsIncludes
      "<html><body><h1>Authorization failed</h1><p>Invalid OAuth state</p></body></html>"
      "Invalid OAuth state" = true := by
  constructor
  · have hmismatch : req.state ≠ some s := by
      rw [hstate]
      simp [hne]
    simp only [handleCallbackRequest, pathEq, jsTruthyOpt, jsTruthy, hstate]
    simp [hs, hr, hne]
  · decide

/-- C8 amended witness: a concrete mismatching request run through
`handleCallback_state_mismatch`. -/
theorem handleCallback_state_mismatch_witness :
    handleCallbackRequest "/" (some "abc") true
      { path := "/", code := some "code1", error := none, state := some "xyz" } =
      ({ status := 400,
         body := "<html><body><h1>Authorization failed</h1><p>Invalid OAuth state</p></body></html>" },
       PromiseAction.rejected "Invalid OAuth state") := by
  exact (handleCallback_state_mismatch "/" "abc" "xyz"
    { path := "/", code := some "code1", error := none, state := some "xyz" }
    rfl (by decide) (by decide) rfl (by decide)).1

/-- C3 counterexample: with no override and port 33418 in use, the listener
falls back to the OS-assigned port 40000, yet the registered `redirect_uris`
are the port-less loopback URI and the stable-port URI only; the URI the
session actually listens on is not registered. -/
theorem oauthListenerSetup_dynamic_counterexample :
    oauthListenerSetup
      { name := "srv", command := Command.http ⟨"https://s.example", "s.example"⟩ none,
        auth := some "oauth", source := none,
        oauthRedirectUrl := none, clientName := none }
      ⟨fun p => if p = 33418 then BindOutcome.addrInUse else BindOutcome.granted 40000⟩ =
      Except.ok
        { port := 40000,
          redirectUrl := ⟨"http:", "127.0.0.1", some 40000, "/"⟩,
          redirect_uris := [⟨"http:", "127.0.0.1", none, "/"⟩,
            ⟨"http:", "127.0.0.1", some 33418, "/"⟩] } ∧
    (⟨"http:", "127.0.0.1", some 40000, "/"⟩ : JsUrl) ∉
      [(⟨"http:", "127.0.0.1", none, "/"⟩ : JsUrl),
       ⟨"http:", "127.0.0.1", some 33418, "/"⟩] := by
  constructor
  · rfl
  · decide

/-- C3 amended: in the loopback-default case the registered `redirect_uris` are
exactly the port-less loopback URI and the stable-port URI; they contain the
URI the listener actually listens on exactly when the bound port is 33418 (or
the degenerate port 80, whose URI renders port-less); in particular, after the
`EADDRINUSE` fallback to an OS-assigned port, the dynamically bound URI is not
registered. -/
theorem oauthListenerSetup_loopback_uris (definition : ServerDefinition)
    (env : ListenEnv) (hov : definition.oauthRedirectUrl = none) :
    (∀ q, env.bind DEFAULT_CALLBACK_PORT = BindOutcome.granted q →
      oauthListenerSetup definition env = Except.ok
        { port := q,
          redirectUrl := ⟨"http:", CALLBACK_HOST, normalizePort "http:" q, "/"⟩,
          redirect_uris := [⟨"http:", CALLBACK_HOST, none, "/"⟩,
            ⟨"http:", CALLBACK_HOST, some DEFAULT_CALLBACK_PORT, "/"⟩] }) ∧
    (∀ p, env.bind DEFAULT_CALLBACK_PORT = BindOutcome.addrInUse →
      env.bind 0 = BindOutcome.granted p →
      oauthListenerSetup definition env = Except.ok
        { port := p,
          redirectUrl := ⟨"http:", CALLBACK_HOST, normalizePort "http:" p, "/"⟩,
          redirect_uris := [⟨"http:", CALLBACK_HOST, none, "/"⟩,
            ⟨"http:", CALLBACK_HOST, some DEFAULT_CALLBACK_PORT, "/"⟩] }) ∧
    (∀ p, (⟨"http:", CALLBACK_HOST, normalizePort "http:" p, "/"⟩ : JsUrl) ∈
        [(⟨"http:", CALLBACK_HOST, none, "/"⟩ : JsUrl),
         ⟨"http:", CALLBACK_HOST, some DEFAULT_CALLBACK_PORT, "/"⟩] ↔
      p = 33418 ∨ p = 80) := by
  refine ⟨?_, ?_, ?_⟩
  · intro q hq
    simp [oauthListenerSetup, hov, hq, CALLBACK_PATH]
  · intro p hq hp
    simp [oauthListenerSetup, hov, hq, hp, CALLBACK_PATH]
  · intro p
    constructor
    · intro hmem
      rcases List.mem_cons.mp hmem with h | h
      · right
        have : normalizePort "http:" p = none := congrArg JsUrl.port h
        by_cases h80 : p = 80
        · exact h80
        · simp [normalizePort, h80] at this
      · left
        have hh : (⟨"http:", CALLBACK_HOST, normalizePort "http:" p, "/"⟩ : JsUrl) =
            ⟨"http:", CALLBACK_HOST, some DEFAULT_CALLBACK_PORT, "/"⟩ := by
          simpa using h
        have : normalizePort "http:" p = some DEFAULT_CALLBACK_PORT :=
          congrArg JsUrl.port hh
        by_cases h80 : p = 80
        · simp [normalizePort, h80, DEFAULT_CALLBACK_PORT] at this
        · simpa [normalizePort, h80, DEFAULT_CALLBACK_PORT] using this
    · rintro (h | h)
      · subst h
        simp [normalizePort, DEFAULT_CALLBACK_PORT]
      · subst h
        simp [normalizePort]

/-- C3 amended witness: concrete runs through `oauthListenerSetup_loopback_uris`
for the stable-port case and the fallback case. -/
theorem oauthListenerSetup_loopback_uris_witness :
    oauthListenerSetup
      { name := "srv", command := Command.http ⟨"https://s.example", "s.example"⟩ none,
        auth := some "oauth", source := none,
        oauthRedirectUrl := none, clientName := none }
      ⟨fun _ => BindOutcome.granted 33418⟩ =
      Except.ok
        { port := 33418,
          redirectUrl := ⟨"http:", "127.0.0.1", some 33418, "/"⟩,
          redirect_uris := [⟨"http:", "127.0.0.1", none, "/"⟩,
            ⟨"http:", "127.0.0.1", some 33418, "/"⟩] } ∧
    ((⟨"http:", "127.0.0.1", normalizePort "http:" 40000, "/"⟩ : JsUrl) ∈
        [(⟨"http:", "127.0.0.1", none, "/"⟩ : JsUrl),
         ⟨"http:", "127.0.0.1", some 33418, "/"⟩] ↔
      (40000 : Nat) = 33418 ∨ (40000 : Nat) = 80) := by
  constructor
  · have h := (oauthListenerSetup_loopback_uris
      { name := "srv", command := Command.http ⟨"https://s.example", "s.example"⟩ none,
        auth := some "oauth", source := none,
        oauthRedirectUrl := none, clientName := none }
      ⟨fun _ => BindOutcome.granted 33418⟩ rfl).1 33418 rfl
    simpa [normalizePort, CALLBACK_HOST, DEFAULT_CALLBACK_PORT] using h
  · have h := (oauthListenerSetup_loopback_uris
      { name := "srv", command := Command.http ⟨"https://s.example", "s.example"⟩ none,
        auth := some "oauth", source := none,
        oauthRedirectUrl := none, clientName := none }
      ⟨fun _ => BindOutcome.granted 33418⟩ rfl).2.2 40000
    simpa [CALLBACK_HOST, DEFAULT_CALLBACK_PORT] using h

/-- C9: on the cached-auth fast path (`allowCachedAuth`, `auth="oauth"`, HTTP
command, truthy cached token) an `Authorization: Bearer` header is injected
only when the headers do not already contain an `Authorization` entry; when one
is present the definition, headers included, is returned unchanged, and when
absent only the headers gain the new entry. -/
theorem applyCachedAuth_frame (definition : ServerDefinition) (url : HttpUrl)
    (headers : Option (List (String × String))) (t : String)
    (hcmd : definition.command = Command.http url headers)
    (hauth : definition.auth = some "oauth") (ht : t ≠ "") :
    (headersHaveKey (headers.getD []) "Authorization" = true →
      applyCachedAuth true definition (ReadTokenResult.value (some t)) = definition) ∧
    (headersHaveKey (headers.getD []) "Authorization" = false →
      applyCachedAuth true definition (ReadTokenResult.value (some t)) =
        { definition with
          command := Command.http url
            (some ((headers.getD []) ++ [("Authorization", "Bearer " ++ t)])) }) := by
  constructor
  · intro hhave
    simp [applyCachedAuth, hcmd, hauth, Command.kind, jsTruthyOpt, jsTruthy, ht, hhave]
  · intro hmiss
    simp [applyCachedAuth, hcmd, hauth, Command.kind, jsTruthyOpt, jsTruthy, ht, hmiss]

/-- C9 witness: concrete runs through `applyCachedAuth_frame` for a definition
with and without a pre-existing `Authorization` header. -/
theorem applyCachedAuth_frame_witness :
    applyCachedAuth true
      { name := "srv", command := Command.http ⟨"https://s.example", "s.example"⟩
          (some [("Authorization", "Bearer old")]),
        auth := some "oauth", source := none,
        oauthRedirectUrl := none, clientName := none }
      (ReadTokenResult.value (some "newtok")) =
      { name := "srv", command := Command.http ⟨"https://s.example", "s.example"⟩
          (some [("Authorization", "Bearer old")]),
        auth := some "oauth", source := none,
        oauthRedirectUrl := none, clientName := none } ∧
    applyCachedAuth true
      { name := "srv2", command := Command.http ⟨"https://s.example", "s.example"⟩
          (some [("X-Trace", "1")]),
        auth := some "oauth", source := none,
        oauthRedirectUrl := none, clientName := none }
      (ReadTokenResult.value (some "newtok")) =
      { name := "srv2", command := Command.http ⟨"https://s.example", "s.example"⟩
          (some [("X-Trace", "1"), ("Authorization", "Bearer newtok")]),
        auth := some "oauth", source := none,
        oauthRedirectUrl := none, clientName := none } := by
  constructor
  · exact (applyCachedAuth_frame _ ⟨"https://s.example", "s.example"⟩
      (some [("Authorization", "Bearer old")]) "newtok" rfl rfl (by decide)).1 (by decide)
  · have h := (applyCachedAuth_frame
      { name := "srv2", command := Command.http ⟨"https://s.example", "s.example"⟩
          (some [("X-Trace", "1")]),
        auth := some "oauth", source := none,
        oauthRedirectUrl := none, clientName := none }
      ⟨"https://s.example", "s.example"⟩
      (some [("X-Trace", "1")]) "newtok" rfl rfl (by decide)).2 (by decide)
    simpa using h

/-- C10: for every `timeoutMs` that is not a finite positive number,
`waitForAuthorizationCodeWithTimeout` returns the session promise unchanged and
can never reject with an `OAuthTimeoutError`; for every finite positive
`timeoutMs`, when the timer fires before the code arrives it rejects with an
`OAuthTimeoutError` carrying the server name and that `timeoutMs`. -/
theorem waitForAuthorizationCode_deadline_spec :
    (∀ (serverName : Option String) (t : JsNumber) (env : WaitEnv),
      jsIsFinite t = false ∨ jsLeZero t = true →
      waitForAuthorizationCodeWithTimeout serverName t env =
        sessionPromiseFinal env.sessionOutcome ∧
      ∀ nm tm, waitForAuthorizationCodeWithTimeout serverName t env ≠
        WaitFinal.rejectedTimeout nm tm) ∧
    (∀ (s : String) (q : ℚ) (env : WaitEnv), 0 < q →
      env.sessionOutcome = none ∨ env.sessionSettlesFirst = false →
      waitForAuthorizationCodeWithTimeout (some s) (JsNumber.finite q) env =
        WaitFinal.rejectedTimeout s (JsNumber.finite q)) := by
  constructor
  · intro serverName t env hcond
    have hif : ¬ (jsIsFinite t = true) ∨ jsLeZero t = true := by
      rcases hcond with h | h
      · exact Or.inl (by simp [h])
      · exact Or.inr h
    have heq : waitForAuthorizationCodeWithTimeout serverName t env =
        sessionPromiseFinal env.sessionOutcome := by
      simp only [waitForAuthorizationCodeWithTimeout]
      rw [if_pos hif]
    refine ⟨heq, ?_⟩
    intro nm tm
    rw [heq]
    cases ho : env.sessionOutcome with
    | none => simp [sessionPromiseFinal]
    | some o => cases o <;> simp [sessionPromiseFinal]
  · intro s q env hq hrace
    have hif : ¬ (¬ (jsIsFinite (JsNumber.finite q) = true) ∨
        jsLeZero (JsNumber.finite q) = true) := by
      simp [jsIsFinite, jsLeZero]
      linarith
    simp only [waitForAuthorizationCodeWithTimeout]
    rw [if_neg hif]
    rcases hrace with h | h
    · simp [h]
    · cases ho : env.sessionOutcome with
      | none => simp
      | some o => simp [h]

/-- C10 witness: concrete evaluations through
`waitForAuthorizationCode_deadline_spec`: an infinite timeout returns the
session resolution directly, and a 1000 ms timeout with no arriving code
rejects with the timeout error. -/
theorem waitForAuthorizationCode_deadline_witness :
    waitForAuthorizationCodeWithTimeout (some "srv") JsNumber.posInf
      ⟨some (SessionOutcome.resolved "c0"), true⟩ = WaitFinal.resolved "c0" ∧
    waitForAuthorizationCodeWithTimeout (some "srv") (JsNumber.finite 1000)
      ⟨none, false⟩ = WaitFinal.rejectedTimeout "srv" (JsNumber.finite 1000) := by
  constructor
  · have h := (waitForAuthorizationCode_deadline_spec.1 (some "srv") JsNumber.posInf
      ⟨some (SessionOutcome.resolved "c0"), true⟩ (Or.inl rfl)).1
    simpa [sessionPromiseFinal] using h
  · exact waitForAuthorizationCode_deadline_spec.2 "srv" 1000 ⟨none, false⟩
      (by norm_num) (Or.inl rfl)

/-- Helper: the connect loop makes at most `maxAttempts - attempt + 1` further
connect calls from any state. -/
theorem connectWithAuthGo_count_le (env : ConnectEnv) (s f : Bool) (m : Nat)
    (nm : String) (tms : Nat) (a i : Nat) :
    (connectWithAuthGo env s f m nm tms a i).2 ≤ i + 1 + (m - a) := by
  induction a, i using connectWithAuthGo.induct env s f m nm tms with
  | case1 a i h => simp [connectWithAuthGo, h]
  | case2 a i e h h2 => simp [connectWithAuthGo, h, h2]
  | case3 a i e h h2 h3 => simp [connectWithAuthGo, h, h2, h3]
  | case4 a i e h h2 h3 h4 => simp [connectWithAuthGo, h, h2, h3, h4]
  | case5 a i e h h2 h3 h4 c hw hhf hfr ih =>
    rw [connectWithAuthGo.eq_def, h]
    simp [h2, h3, h4, hw, hhf, hfr]
    rw [hhf] at ih
    omega
  | case6 a i e h h2 h3 h4 c hw hhf fe hfr =>
    simp [connectWithAuthGo, h, h2, h3, h4, hw, hhf, hfr]
  | case7 a i e h h2 h3 h4 c hw hhf =>
    simp [connectWithAuthGo, h, h2, h3, h4, hw, hhf]
  | case8 a i e h h2 h3 h4 hw =>
    simp [connectWithAuthGo, h, h2, h3, h4, hw]
  | case9 a i e h h2 h3 h4 msg hw =>
    simp [connectWithAuthGo, h, h2, h3, h4, hw]

/-- Helper: when every connect attempt fails unauthorized and every wait and
`finishAuth` succeeds, the loop runs out of attempts and propagates the connect
error of its last attempt, after exactly `maxAttempts - attempt + 1` further
connect calls. -/
theorem connectWithAuthGo_exceed (env : ConnectEnv) (m : Nat) (nm : String)
    (tms : Nat) (errF : Nat → ConnectionIssue) (codes : Nat → String)
    (hconn : ∀ k, env.connect k = ConnectOutcome.fail (errF k))
    (hauth : ∀ k, (errF k).kind = ErrKind.auth)
    (hstart : ∀ k, env.started k = true)
    (hwait : ∀ k, env.wait k = WaitOutcome.code (codes k))
    (hfin : ∀ k, env.finishAuthResult k = none) (a i : Nat) :
    connectWithAuthGo env true true m nm tms a i =
      (Except.error (AuthConnectError.connectError (errF (i + (m - a)))),
       i + (m - a) + 1) := by
  induction a, i using connectWithAuthGo.induct env true true m nm tms with
  | case1 a i h => rw [hconn i] at h; cases h
  | case2 a i e h h2 =>
    rw [hconn i] at h
    cases h
    exact absurd ⟨by simp [isUnauthorizedError, analyzeConnectionError, hauth i], rfl⟩ h2
  | case3 a i e h h2 h3 =>
    rw [hconn i] at h
    cases h
    have hma : m - a = 0 := by omega
    rw [connectWithAuthGo.eq_def, hconn i]
    simp [h2, h3, hma]
  | case4 a i e h h2 h3 h4 =>
    exact absurd (hstart i) (by simpa using h4)
  | case5 a i e h h2 h3 h4 c hw hhf hfr ih =>
    have hu : isUnauthorizedError (errF i) = true := by
      simp [isUnauthorizedError, analyzeConnectionError, hauth i]
    rw [connectWithAuthGo.eq_def, hconn i]
    simp [hu, h3, h4, hw, hfr]
    rw [ih]
    have h1 : i + 1 + (m - (a + 1)) = i + (m - a) := by omega
    rw [h1]
  | case6 a i e h h2 h3 h4 c hw hhf fe hfr =>
    rw [hfin i] at hfr
    cases hfr
  | case7 a i e h h2 h3 h4 c hw hhf =>
    exact absurd rfl hhf
  | case8 a i e h h2 h3 h4 hw =>
    rw [hwait i] at hw
    cases hw
  | case9 a i e h h2 h3 h4 msg hw =>
    rw [hwait i] at hw
    cases hw

/-- Helper: a failure that is not unauthorized, or any failure with no session,
terminates the loop at once with that error and no retry. -/
theorem connectWithAuthGo_immediate (env : ConnectEnv) (s f : Bool) (m : Nat)
    (nm : String) (tms : Nat) (e : ConnectionIssue) (a i : Nat)
    (hconn : env.connect i = ConnectOutcome.fail e)
    (hno : isUnauthorizedError e = false ∨ s = false) :
    connectWithAuthGo env s f m nm tms a i =
      (Except.error (AuthConnectError.connectError e), i + 1) := by
  have h2 : ¬ (isUnauthorizedError e = true ∧ s = true) := by
    rcases hno with h | h <;> simp [h]
  rw [connectWithAuthGo.eq_def, hconn]
  simp [h2]

/-- C4: `connectWithAuth` makes at most `maxAttempts + 1` connect calls (so at
most `maxAttempts` unauthorized failures become retries); when every attempt
fails unauthorized with a session present, the call ends by propagating the
connect error of the attempt that exceeded the limit, after exactly
`maxAttempts + 1` connect calls; and a failure that is not classified `auth`,
or any failure with no session, terminates immediately after one connect call
with that error. -/
theorem connectWithAuth_retry_bound :
    (∀ (env : ConnectEnv) (s f : Bool) (nm : String) (m : Nat) (tOpt : Option Nat),
      (connectWithAuth env s f nm (some m) tOpt).2 ≤ m + 1) ∧
    (∀ (env : ConnectEnv) (nm : String) (m : Nat) (tOpt : Option Nat)
        (errF : Nat → ConnectionIssue) (codes : Nat → String),
      (∀ k, env.connect k = ConnectOutcome.fail (errF k)) →
      (∀ k, (errF k).kind = ErrKind.auth) →
      (∀ k, env.started k = true) →
      (∀ k, env.wait k = WaitOutcome.code (codes k)) →
      (∀ k, env.finishAuthResult k = none) →
      connectWithAuth env true true nm (some m) tOpt =
        (Except.error (AuthConnectError.connectError (errF m)), m + 1)) ∧
    (∀ (env : ConnectEnv) (s f : Bool) (nm : String)
        (mOpt tOpt : Option Nat) (e : ConnectionIssue),
      env.connect 0 = ConnectOutcome.fail e →
      isUnauthorizedError e = false ∨ s = false →
      connectWithAuth env s f nm mOpt tOpt =
        (Except.error (AuthConnectError.connectError e), 1)) := by
  refine ⟨?_, ?_, ?_⟩
  · intro env s f nm m tOpt
    have h := connectWithAuthGo_count_le env s f m nm (tOpt.getD 60000) 0 0
    simp only [connectWithAuth, Option.getD_some]
    omega
  · intro env nm m tOpt errF codes hconn hauth hstart hwait hfin
    have h := connectWithAuthGo_exceed env m nm (tOpt.getD 60000) errF codes
      hconn hauth hstart hwait hfin 0 0
    simpa [connectWithAuth] using h
  · intro env s f nm mOpt tOpt e hconn hno
    have h := connectWithAuthGo_immediate env s f (mOpt.getD 3) nm
      (tOpt.getD 60000) e 0 0 hconn hno
    simpa [connectWithAuth] using h

/-- C4 witness: concrete runs through `connectWithAuth_retry_bound`: two
allowed attempts against a server that always answers 401 make exactly three
connect calls and propagate the 401, and an offline failure with no session
stops after one call. -/
theorem connectWithAuth_retry_bound_witness :
    (connectWithAuth
      ⟨fun _ => ConnectOutcome.fail ⟨ErrKind.auth, some 401, "HTTP 401"⟩,
       fun _ => true, fun _ => WaitOutcome.code "c", fun _ => none⟩
      true true "srv" (some 2) none).2 ≤ 3 ∧
    connectWithAuth
      ⟨fun _ => ConnectOutcome.fail ⟨ErrKind.auth, some 401, "HTTP 401"⟩,
       fun _ => true, fun _ => WaitOutcome.code "c", fun _ => none⟩
      true true "srv" (some 2) none =
      (Except.error (AuthConnectError.connectError ⟨ErrKind.auth, some 401, "HTTP 401"⟩),
       3) ∧
    connectWithAuth
      ⟨fun _ => ConnectOutcome.fail ⟨ErrKind.offline, none, "fetch failed"⟩,
       fun _ => false, fun _ => WaitOutcome.timedOut, fun _ => none⟩
      false false "srv" none none =
      (Except.error (AuthConnectError.connectError ⟨ErrKind.offline, none, "fetch failed"⟩),
       1) := by
  refine ⟨?_, ?_, ?_⟩
  · exact connectWithAuth_retry_bound.1
      ⟨fun _ => ConnectOutcome.fail ⟨ErrKind.auth, some 401, "HTTP 401"⟩,
       fun _ => true, fun _ => WaitOutcome.code "c", fun _ => none⟩
      true true "srv" 2 none
  · exact connectWithAuth_retry_bound.2.1
      ⟨fun _ => ConnectOutcome.fail ⟨ErrKind.auth, some 401, "HTTP 401"⟩,
       fun _ => true, fun _ => WaitOutcome.code "c", fun _ => none⟩
      "srv" 2 none (fun _ => ⟨ErrKind.auth, some 401, "HTTP 401"⟩) (fun _ => "c")
      (fun _ => rfl) (fun _ => rfl) (fun _ => rfl) (fun _ => rfl) (fun _ => rfl)
  · exact connectWithAuth_retry_bound.2.2
      ⟨fun _ => ConnectOutcome.fail ⟨ErrKind.offline, none, "fetch failed"⟩,
       fun _ => false, fun _ => WaitOutcome.timedOut, fun _ => none⟩
      false false "srv" none none ⟨ErrKind.offline, none, "fetch failed"⟩
      rfl (Or.inl rfl)

/-- Helper: with `maxOAuthAttempts = 0` the HTTP loop emits no OAuth events at
any fuel, for any definition. -/
theorem createClientContextLoop_zero_attempts (env : BuildEnv) (tOpt : Option Nat)
    (allowCached : Bool) (fuel : Nat) (d : ServerDefinition) (n : Nat) :
    (createClientContextLoop env ⟨some 0, tOpt, allowCached⟩ fuel d n).2 = [] := by
  cases fuel with
  | zero => rfl
  | succ f =>
    cases hc : d.command with
    | stdio c a w => simp [createClientContextLoop, hc]
    | http u hs =>
      cases hp : env.primary n with
      | ok v => simp [createClientContextLoop, hc, hp]
      | error pe =>
        cases hsse : env.sse n with
        | ok v =>
          cases hto : pe.isOAuthTimeout <;>
            simp [createClientContextLoop, sseFallback, hc, hp, hsse, hto]
        | error se =>
          cases hto : pe.isOAuthTimeout <;>
            simp [createClientContextLoop, sseFallback, hc, hp, hsse, hto]

/-- C5: a `createClientContext` call with `maxOAuthAttempts = 0` emits the
empty OAuth event trace for every definition and every environment, including
one where both the streamable-HTTP and the SSE connect attempts fail with 401:
since `RuntimeEvent.sessionCreated` records every `createOAuthSession` call and
`RuntimeEvent.promotionChecked` every `maybeEnableOAuth` call, no OAuth session
is ever created and no promotion is ever attempted. -/
theorem createClientContext_maxZero_no_oauth (env : BuildEnv) (tOpt : Option Nat)
    (allowCached : Bool) (definition : ServerDefinition) :
    (createClientContext env ⟨some 0, tOpt, allowCached⟩ definition).2 = [] := by
  unfold createClientContext
  cases hc : (applyCachedAuth allowCached definition env.readToken).command with
  | stdio c a w => simp [hc]
  | http u hs => simp [hc, createClientContextLoop_zero_attempts]

end McpRuntime
